import Mathlib

set_option maxRecDepth 100000

/-!
Verification of the PCX decoder subsystem (`pcx_reader.py`): header parsing,
RLE decoding, trailing-palette recovery and the `read_pcx` facade.

Files are modelled as lists of byte values (`List Nat`, each element below 256
in any real file).  All functions are shallow embeddings of the Python source:
`read_pcx_header`, `read_pcx_256_palette`, `pcx_rle_decode`, `read_pcx`.
-/

namespace Pcx

/-- RLE decoder, embedding the `while i < L` loop of `pcx_rle_decode`:
a byte `b ≥ 0xC0` is a run marker whose count is `b & 0x3F` (written `b % 64`,
equal to the bitmask since `0x3F = 63 = 2^6 - 1`); the next byte is emitted
`count` times.  A marker as the very last byte is dropped (the Python loop
breaks before reading the missing value byte).  Any other byte is a literal. -/
def pcx_rle_decode : List Nat → List Nat
  | [] => []
  | [b] => if 192 ≤ b then [] else [b]
  | b :: v :: rest =>
      if 192 ≤ b then List.replicate (b % 64) v ++ pcx_rle_decode rest
      else b :: pcx_rle_decode (v :: rest)

/-- True when the byte list splits into complete RLE tokens: every run marker
is followed by its value byte.  Decoding such a list consumes it exactly, so a
byte appended after it is reached in marker position. -/
def completeTokens : List Nat → Bool
  | [] => true
  | [b] => decide (b < 192)
  | b :: v :: rest =>
      if 192 ≤ b then completeTokens rest
      else completeTokens (v :: rest)

/-- Little-endian 16-bit read at byte offset `k`, as `struct.unpack('<...H...')`
does for a `H` field starting at `k`. -/
def u16le (file : List Nat) (k : Nat) : Nat :=
  file.getD k 0 + 256 * file.getD (k + 1) 0

/-- The fields `read_pcx_header` extracts from the 128-byte record via
`struct.unpack('<BBBB 4H 2H 48B B B H H 2H 54B', header_bytes)`:
indices 0–3 of the unpacked tuple are the four leading bytes, 4–9 the six
16-bit words at offsets 4–15, and indices 59–63 are the byte at offset 65 and
the 16-bit words at offsets 66, 68, 70 and 72 (index 58, the reserved byte at
offset 64, and the 48-byte EGA palette and 54 trailing bytes are ignored). -/
structure PcxHeader where
  manufacturer : Nat
  version : Nat
  encoding : Nat
  bitsPerPixel : Nat
  xmin : Nat
  ymin : Nat
  xmax : Nat
  ymax : Nat
  hDpi : Nat
  vDpi : Nat
  numColorPlanes : Nat
  bytesPerLine : Nat
  paletteType : Nat
  hScreenSize : Nat
  vScreenSize : Nat
deriving Repr, DecidableEq

/-- Header parser: `f.read(128)` yields fewer than 128 bytes exactly when the
file is shorter, which the Python reports as an error (modelled `none`);
otherwise every 128-byte record unpacks successfully, with no validation of
any field value. -/
def read_pcx_header (file : List Nat) : Option PcxHeader :=
  if file.length < 128 then none
  else some
    { manufacturer := file.getD 0 0
      version := file.getD 1 0
      encoding := file.getD 2 0
      bitsPerPixel := file.getD 3 0
      xmin := u16le file 4
      ymin := u16le file 6
      xmax := u16le file 8
      ymax := u16le file 10
      hDpi := u16le file 12
      vDpi := u16le file 14
      numColorPlanes := file.getD 65 0
      bytesPerLine := u16le file 66
      paletteType := u16le file 68
      hScreenSize := u16le file 70
      vScreenSize := u16le file 72 }

/-- Derived field: `width = xmax - xmin + 1`, computed in unbounded signed
arithmetic as Python does (it can be zero or negative). -/
def width (h : PcxHeader) : Int := (h.xmax : Int) - (h.xmin : Int) + 1

/-- Derived field: `height = ymax - ymin + 1`, in unbounded signed
arithmetic. -/
def height (h : PcxHeader) : Int := (h.ymax : Int) - (h.ymin : Int) + 1

/-- Derived field: `is_indexed = num_color_planes == 1 and bits_per_pixel == 8`. -/
def is_indexed (h : PcxHeader) : Bool :=
  h.numColorPlanes == 1 && h.bitsPerPixel == 8

/-- Derived field: the `palette_info` classification chain of
`read_pcx_header`. -/
def palette_info (h : PcxHeader) : String :=
  if is_indexed h then "256-Color (External)"
  else if h.bitsPerPixel ≤ 4 ∧ h.numColorPlanes = 1 then "16-Color (Internal)"
  else if h.bitsPerPixel = 8 ∧ h.numColorPlanes = 3 then "24-bit True Color"
  else "Custom/Unknown"

/-- The classification exactly as the claim words it, in its stated precedence
order, for comparison with `palette_info`. -/
def claimPaletteInfo (bpp planes : Nat) : String :=
  if planes = 1 ∧ bpp = 8 then "256-Color (External)"
  else if bpp ≤ 4 ∧ planes = 1 then "16-Color (Internal)"
  else if bpp = 8 ∧ planes = 3 then "24-bit True Color"
  else "Custom/Unknown"

/-- The last `n` elements of a list (all of it when shorter), matching the
Python slice `combined[-n:]` on lists of length at least `n` and the
degenerate all-of-it behaviour below `n`. -/
def lastN (n : Nat) (l : List Nat) : List Nat := l.drop (l.length - n)

/-- One iteration of the rolling-window loop body in `read_pcx_256_palette`:
append the chunk while at most 769 bytes accumulate, otherwise keep only the
last 769 bytes of the concatenation. -/
def rollStep (acc chunk : List Nat) : List Nat :=
  if acc.length + chunk.length ≤ 769 then acc ++ chunk
  else lastN 769 (acc ++ chunk)

/-- The `while True` read loop of `read_pcx_256_palette`: consume the file in
chunks of `chunk_size = 4096` bytes, applying `rollStep` to each. -/
def readTailLoop : List Nat → List Nat → List Nat
  | acc, [] => acc
  | acc, b :: rest =>
      readTailLoop (rollStep acc ((b :: rest).take 4096)) ((b :: rest).drop 4096)
termination_by _ rest => rest.length
decreasing_by simp; omega

/-- The rolling-window loop run over an arbitrary sequence of sequential
chunks, for the refinement statement about chunk partitions. -/
def rollChunks (cs : List (List Nat)) : List Nat := cs.foldl rollStep []

/-- Modelled from the spec: the alternative seek-based palette-location
strategy — seek to `fileSize - 769` and read 769 bytes once.  The source only
implements the streaming strategy; this definition follows the words of the
spec for the equivalence claim. -/
def seekReadTail (file : List Nat) : List Nat :=
  (file.drop (file.length - 769)).take 769

/-- The `tail` variable of `read_pcx_256_palette` after the read loop ends. -/
def paletteTail (file : List Nat) : List Nat := readTailLoop [] file

/-- The `palette_bytes = tail[1:769]` slice of `read_pcx_256_palette`. -/
def paletteBytes (file : List Nat) : List Nat := ((paletteTail file).drop 1).take 768

/-- Palette reader: requires `file_size ≥ 128 + 769`, obtains the last 769
bytes via the rolling window, demands the signature byte 12 (`0x0C`), then
groups the following 768 bytes into 256 RGB triples in file order (the loop
`for i in range(0, 768, 3)` visits `i = 3 * j` for `j` below 256). -/
def read_pcx_256_palette (file : List Nat) : Option (List (Nat × Nat × Nat)) :=
  if file.length < 128 + 769 then none
  else if (paletteTail file).length < 769 then none
  else if (paletteTail file).getD 0 0 ≠ 12 then none
  else if (paletteBytes file).length < 768 then none
  else some ((List.range 256).map fun i =>
    ((paletteBytes file).getD (3 * i) 0,
     (paletteBytes file).getD (3 * i + 1) 0,
     (paletteBytes file).getD (3 * i + 2) 0))

/-- The palette as the claim describes it: 256 RGB triples taken in file order
from the final 768 bytes of the file. -/
def palette256 (file : List Nat) : List (Nat × Nat × Nat) :=
  (List.range 256).map fun i =>
    (file.getD (file.length - 768 + 3 * i) 0,
     file.getD (file.length - 768 + 3 * i + 1) 0,
     file.getD (file.length - 768 + 3 * i + 2) 0)

/-- The row-assembly loop of `read_pcx`: for each remaining row take
`bytes_per_line` bytes from the decoded buffer at the running offset, stop if
the slice is short, and keep the first `width` bytes of each full row. -/
def assembleRows (decoded : List Nat) (bpl w : Nat) : Nat → Nat → List Nat
  | 0, _ => []
  | n + 1, offset =>
      let row := (decoded.drop offset).take bpl
      if row.length < bpl then []
      else row.take w ++ assembleRows decoded bpl w n (offset + bpl)

/-- The aggregate result dictionary of `read_pcx`.  The header is `none` when
header parsing failed (the Python stores the error dictionary); the image is
the flat list of row-major pixel indices put into the PIL image. -/
structure PcxReadResult where
  header : Option PcxHeader
  palette : Option (List (Nat × Nat × Nat))
  raw_pixels : Option (List Nat)
  image : Option (List Nat)
deriving Repr, DecidableEq

/-- The `compressed` region of `read_pcx`: the chunked read of
`image_data_size = file_size - 128 - 769` bytes that follow the 128-byte
header (every chunk read completes, since the file holds at least that many
bytes past the header). -/
def imageData (file : List Nat) : List Nat :=
  (file.drop 128).take (file.length - 897)

/-- The `decoded` buffer of `read_pcx`: the RLE decode of the compressed
image-data region. -/
def decodedPixels (file : List Nat) : List Nat := pcx_rle_decode (imageData file)

/-- The `read_pcx` facade.  After a successful header parse it requires
`file_size ≥ 128 + 769` and a positive image-data size
`file_size - 128 - 769`, RLE-decodes the compressed region, reads the
palette, and for the 8-bit single-plane case with truthy (nonzero) width,
height and bytes-per-line builds the row-major index image when the decoded
buffer holds at least `bytes_per_line * height` bytes.  A zero or negative
PIL image dimension raises inside the `try`, leaving the image absent. -/
def read_pcx (file : List Nat) : PcxReadResult :=
  match read_pcx_header file with
  | none => ⟨none, none, none, none⟩
  | some h =>
    if file.length < 128 + 769 then ⟨some h, none, none, none⟩
    else if file.length - 897 = 0 then ⟨some h, none, none, none⟩
    else if (imageData file).length = 0 then ⟨some h, none, none, none⟩
    else if h.bitsPerPixel = 8 ∧ h.numColorPlanes = 1 ∧
        width h ≠ 0 ∧ height h ≠ 0 ∧ h.bytesPerLine ≠ 0 then
      if ((decodedPixels file).length : Int) < (h.bytesPerLine : Int) * height h then
        ⟨some h, read_pcx_256_palette file, some (decodedPixels file), none⟩
      else if 0 < width h ∧ 0 < height h then
        ⟨some h, read_pcx_256_palette file, some (decodedPixels file),
          some (assembleRows (decodedPixels file) h.bytesPerLine
            (width h).toNat (height h).toNat 0)⟩
      else ⟨some h, read_pcx_256_palette file, some (decodedPixels file), none⟩
    else ⟨some h, read_pcx_256_palette file, some (decodedPixels file), none⟩

/-- Concrete 128-byte header record: bits per pixel 8 (offset 3), xmax 3
(offset 8), ymax 3 (offset 10), one color plane (offset 65), four bytes per
line (offset 66); every other byte zero. -/
def hdrBytesC1 : List Nat :=
  (((((List.replicate 128 0).set 3 8).set 8 3).set 10 3).set 65 1).set 66 4

/-- Concrete 899-byte file: the header above, a two-byte RLE region
`[0xC8, 0x07]` decoding to eight bytes (two complete four-byte rows, short of
the sixteen bytes four rows need), and a 769-byte zero tail. -/
def fileC1 : List Nat := hdrBytesC1 ++ [200, 7] ++ List.replicate 769 0

/-- The header value parsed from `fileC1`. -/
def hC1 : PcxHeader := ⟨0, 0, 0, 8, 0, 0, 3, 3, 0, 0, 1, 4, 0, 0, 0⟩

/-- Concrete 128-byte record with byte 7 at offset 65 and byte 9 at
offset 68, separating the two candidate offsets for `num_color_planes`. -/
def fileC2 : List Nat := ((List.replicate 128 0).set 65 7).set 68 9

/-- The header value parsed from `fileC2`: the plane count comes from
offset 65 and the palette type word from offset 68. -/
def hC2 : PcxHeader := ⟨0, 0, 0, 0, 0, 0, 0, 0, 0, 0, 7, 0, 9, 0, 0⟩

/-- Concrete 128-byte record with `xmin = 1` and `xmax = 0`, so the derived
width is `0 - 1 + 1 = 0`. -/
def fileC7 : List Nat := (List.replicate 128 0).set 4 1

/-- The header value parsed from `fileC7`. -/
def hC7 : PcxHeader := ⟨0, 0, 0, 0, 1, 0, 0, 0, 0, 0, 0, 0, 0, 0, 0⟩

/-- Concrete 128-byte record classifying as indexed: bits per pixel 8, one
plane. -/
def fileC9 : List Nat := ((List.replicate 128 0).set 3 8).set 65 1

/-- The header value parsed from `fileC9`. -/
def hC9 : PcxHeader := ⟨0, 0, 0, 8, 0, 0, 0, 0, 0, 0, 1, 0, 0, 0, 0⟩

/-- Concrete 897-byte file whose tail signature byte (position 128) is 12:
palette present. -/
def fileC4 : List Nat := (List.replicate 897 0).set 128 12

/-- Concrete 897-byte file of zeros: tail signature byte is 0, no palette. -/
def fileC4b : List Nat := List.replicate 897 0

/-- A literal byte (below `0xC0`) passes through unchanged, whatever follows. -/
theorem rle_decode_cons_lit (b : Nat) (rest : List Nat) (h : b < 192) :
    pcx_rle_decode (b :: rest) = b :: pcx_rle_decode rest := by
  cases rest with
  | nil => simp [pcx_rle_decode, Nat.not_le.2 h]
  | cons v r => simp [pcx_rle_decode, Nat.not_le.2 h]

/-- A run marker followed by a value emits `b % 64` copies of the value. -/
theorem rle_decode_cons_run (b v : Nat) (rest : List Nat) (h : 192 ≤ b) :
    pcx_rle_decode (b :: v :: rest) = List.replicate (b % 64) v ++ pcx_rle_decode rest := by
  simp [pcx_rle_decode, h]

/-- Appending a marker byte after a complete token sequence leaves the decoded
output unchanged: the dangling marker is dropped. -/
theorem rle_append_marker : ∀ (xs : List Nat) (m : Nat),
    completeTokens xs = true → 192 ≤ m →
    pcx_rle_decode (xs ++ [m]) = pcx_rle_decode xs
  | [], m, _, hm => by simp [pcx_rle_decode, hm]
  | [b], m, hc, hm => by
      have hb : b < 192 := by simpa [completeTokens] using hc
      simp [pcx_rle_decode, Nat.not_le.2 hb, hm]
  | b :: v :: rest, m, hc, hm => by
      by_cases hb : 192 ≤ b
      · have hc' : completeTokens rest = true := by simpa [completeTokens, hb] using hc
        simp [rle_decode_cons_run _ _ _ hb, rle_append_marker rest m hc' hm]
      · have hb' : b < 192 := Nat.not_le.1 hb
        have hc' : completeTokens (v :: rest) = true := by
          simpa [completeTokens, hb] using hc
        have h2 := rle_append_marker (v :: rest) m hc' hm
        simp only [List.cons_append] at h2
        simp [rle_decode_cons_lit _ _ hb', h2]

/-- Claim C3 counterexample: the claim asserts every run count `b & 0x3F` lies
in the range 1–63, but the marker `0xC0 = 192` has run count `192 % 64 = 0`:
decoding `[0xC0, 0x05]` emits the value byte zero times, yielding empty
output, so the count is not in the range 1–63. -/
theorem C3_run_count_counterexample :
    pcx_rle_decode [192, 5] = [] ∧ ¬ (1 ≤ 192 % 64 ∧ 192 % 64 ≤ 63) := by
  exact ⟨rfl, by decide⟩

/-- Claim C3 (amended): a byte `b ≥ 0xC0` is a run marker whose run count
`b & 0x3F = b % 64` lies in the range 0–63, and the next input byte is
appended to the output repeated exactly that many times (zero times for
`b = 0xC0`); a byte `b < 0xC0` is appended as a literal; decoding
`[0xC3, 0x05]` yields `[0x05, 0x05, 0x05]`. -/
theorem C3_rle_decode_amended : ∀ (b v : Nat) (rest : List Nat),
    (192 ≤ b →
      pcx_rle_decode (b :: v :: rest) = List.replicate (b % 64) v ++ pcx_rle_decode rest ∧
      b % 64 ≤ 63) ∧
    (b < 192 → pcx_rle_decode (b :: rest) = b :: pcx_rle_decode rest) ∧
    pcx_rle_decode [195, 5] = [5, 5, 5] := by
  intro b v rest
  refine ⟨fun hb => ⟨rle_decode_cons_run b v rest hb, ?_⟩,
          fun hb => rle_decode_cons_lit b rest hb, by rfl⟩
  omega

/-- Claim C3 amended witness: instantiated at the marker byte `0xC3 = 195`
with value byte 5 and empty remainder. -/
theorem C3_rle_decode_amended_witness :
    pcx_rle_decode [195, 5] = List.replicate (195 % 64) 5 ++ pcx_rle_decode [] ∧
    195 % 64 ≤ 63 :=
  (C3_rle_decode_amended 195 5 []).1 (by decide)

/-- Claim C5: an input ending in a run marker reached in marker position (its
prefix splits into complete tokens) decodes to exactly the decode of the
prefix: no error, nothing appended for the dangling marker. -/
theorem C5_trailing_marker_discarded : ∀ (xs : List Nat) (m : Nat),
    completeTokens xs = true → 192 ≤ m →
    pcx_rle_decode (xs ++ [m]) = pcx_rle_decode xs :=
  rle_append_marker

/-- Claim C5 witness: a lone trailing `0xC2 = 194` after `[1, 0xC3, 5]` is
dropped. -/
theorem C5_trailing_marker_discarded_witness :
    pcx_rle_decode ([1, 195, 5] ++ [194]) = pcx_rle_decode [1, 195, 5] ∧
    pcx_rle_decode [1, 195, 5] = [1, 5, 5, 5] :=
  ⟨C5_trailing_marker_discarded [1, 195, 5] 194 (by decide) (by decide), by rfl⟩

/-- Claim C8: a byte sequence with no byte `≥ 0xC0` decodes to itself (it is
its own literal RLE encoding, so encode-then-decode is the identity on it). -/
theorem C8_literal_roundtrip : ∀ (data : List Nat),
    (∀ b ∈ data, b < 192) → pcx_rle_decode data = data := by
  intro data h
  induction data with
  | nil => rfl
  | cons b rest ih =>
      have hb : b < 192 := h b (List.mem_cons_self b rest)
      have hrest : ∀ x ∈ rest, x < 192 := fun x hx => h x (List.mem_cons_of_mem b hx)
      rw [rle_decode_cons_lit b rest hb, ih hrest]

/-- Claim C8 witness: the literal sequence `[10, 20, 191]` decodes to
itself. -/
theorem C8_literal_roundtrip_witness :
    pcx_rle_decode [10, 20, 191] = [10, 20, 191] :=
  C8_literal_roundtrip [10, 20, 191] (by decide)

/-- Reading with a default past a drop shifts the index. -/
theorem getD_drop (l : List Nat) (n m : Nat) :
    (l.drop n).getD m 0 = l.getD (n + m) 0 := by
  simp [List.getD_eq_getElem?_getD, List.getElem?_drop]

/-- Reading with a default below the cut of a take is unaffected. -/
theorem getD_take (l : List Nat) (n m : Nat) (h : m < n) :
    (l.take n).getD m 0 = l.getD m 0 := by
  simp [List.getD_eq_getElem?_getD, List.getElem?_take_of_lt h]

/-- One rolling-window step preserves the invariant: starting from the last
769 bytes of the consumed prefix, processing one more chunk leaves the last
769 bytes of the extended prefix. -/
theorem rollStep_lastN (p c : List Nat) :
    rollStep (lastN 769 p) c = lastN 769 (p ++ c) := by
  unfold rollStep lastN
  by_cases hc : (p.drop (p.length - 769)).length + c.length ≤ 769
  · rw [if_pos hc]
    rw [List.length_drop] at hc
    by_cases hp : p.length ≤ 769
    · have e1 : p.length - 769 = 0 := by omega
      have e2 : (p ++ c).length - 769 = 0 := by
        rw [List.length_append]
        omega
      simp only [e1, e2, List.drop_zero]
    · have hce : c = [] := List.length_eq_zero.mp (by omega)
      subst hce
      simp
  · rw [if_neg hc]
    rw [List.length_drop] at hc
    simp only [List.drop_append_eq_append_drop, List.drop_drop,
      List.length_append, List.length_drop]
    have eA : p.length - 769 + (p.length - (p.length - 769) + c.length - 769) =
        p.length + c.length - 769 := by omega
    have eB : p.length - (p.length - 769) + c.length - 769 -
        (p.length - (p.length - 769)) = p.length + c.length - 769 - p.length := by
      omega
    rw [eA, eB]

/-- The rolling window over any chunk sequence, started from the last 769
bytes of a prefix, ends holding the last 769 bytes of the prefix followed by
the chunk concatenation. -/
theorem rollChunks_lastN : ∀ (cs : List (List Nat)) (p : List Nat),
    cs.foldl rollStep (lastN 769 p) = lastN 769 (p ++ cs.flatten)
  | [], p => by simp
  | c :: cs, p => by
      rw [List.foldl_cons, rollStep_lastN p c, rollChunks_lastN cs (p ++ c)]
      simp [List.append_assoc]

/-- The 4096-byte chunked read loop, started from the last 769 bytes of a
prefix, ends holding the last 769 bytes of the prefix followed by the rest of
the file. -/
theorem readTailLoop_lastN : ∀ (rest p : List Nat),
    readTailLoop (lastN 769 p) rest = lastN 769 (p ++ rest)
  | [], p => by simp [readTailLoop]
  | b :: rest, p => by
      rw [readTailLoop, rollStep_lastN p ((b :: rest).take 4096),
        readTailLoop_lastN ((b :: rest).drop 4096) (p ++ (b :: rest).take 4096),
        List.append_assoc, List.take_append_drop]
termination_by rest _ => rest.length
decreasing_by simp; omega

/-- The loop state of `read_pcx_256_palette` after consuming the whole file is
the last 769 bytes of the file. -/
theorem paletteTail_eq (file : List Nat) :
    paletteTail file = file.drop (file.length - 769) := by
  have h := readTailLoop_lastN file []
  simpa [paletteTail, lastN] using h

/-- Claim C6: for every file of at least 128 + 769 bytes and every
partitioning of its bytes into sequentially processed chunks, the rolling
window ends holding exactly the last 769 bytes of the file — the bytes the
seek-based strategy reads by seeking to `fileSize - 769` — and the concrete
4096-byte chunk loop of `read_pcx_256_palette` agrees. -/
theorem C6_rolling_window_eq_seek : ∀ (file : List Nat) (cs : List (List Nat)),
    cs.flatten = file → 897 ≤ file.length →
    rollChunks cs = seekReadTail file ∧ paletteTail file = seekReadTail file := by
  intro file cs hjoin hlen
  have hseek : seekReadTail file = lastN 769 file := by
    unfold seekReadTail lastN
    apply List.take_of_length_le
    rw [List.length_drop]
    omega
  have h1 : rollChunks cs = lastN 769 file := by
    have h := rollChunks_lastN cs []
    simpa [rollChunks, lastN, hjoin] using h
  have h2 : paletteTail file = lastN 769 file := by
    rw [paletteTail_eq]
    rfl
  exact ⟨by rw [h1, hseek], by rw [h2, hseek]⟩

/-- Claim C6 witness: the 897-byte file `fileC4b` split into a 400-byte and a
497-byte chunk. -/
theorem C6_rolling_window_eq_seek_witness :
    rollChunks [List.replicate 400 0, List.replicate 497 0] = seekReadTail fileC4b ∧
    paletteTail fileC4b = seekReadTail fileC4b :=
  C6_rolling_window_eq_seek fileC4b [List.replicate 400 0, List.replicate 497 0]
    (by decide) (by decide)

/-- Claim C4: the palette reader returns a palette exactly when the file has
at least 128 + 769 bytes and the byte at position `fileSize - 769` is 12
(`0x0C`); the palette then consists of exactly 256 RGB triples taken in file
order from the final 768 bytes, and in every other case the reader returns
`none`. -/
theorem C4_palette_iff : ∀ (file : List Nat),
    (897 ≤ file.length → file.getD (file.length - 769) 0 = 12 →
      read_pcx_256_palette file = some (palette256 file) ∧
      (palette256 file).length = 256) ∧
    (file.length < 897 → read_pcx_256_palette file = none) ∧
    (897 ≤ file.length → file.getD (file.length - 769) 0 ≠ 12 →
      read_pcx_256_palette file = none) := by
  intro file
  refine ⟨?_, ?_, ?_⟩
  · intro hlen hsig
    have htl : (paletteTail file).length = 769 := by
      rw [paletteTail_eq, List.length_drop]
      omega
    have hsig' : (paletteTail file).getD 0 0 = 12 := by
      rw [paletteTail_eq, getD_drop, Nat.add_zero]
      exact hsig
    have hpbeq : paletteBytes file = (file.drop (file.length - 768)).take 768 := by
      unfold paletteBytes
      rw [paletteTail_eq, List.drop_drop]
      congr 2
      omega
    have hpb : (paletteBytes file).length = 768 := by
      rw [hpbeq, List.length_take, List.length_drop]
      omega
    constructor
    · unfold read_pcx_256_palette
      rw [if_neg (by omega : ¬ file.length < 128 + 769),
        if_neg (by omega : ¬ (paletteTail file).length < 769),
        if_neg (not_not_intro hsig'),
        if_neg (by omega : ¬ (paletteBytes file).length < 768)]
      unfold palette256
      congr 1
      apply List.map_congr_left
      intro i hi
      have hi' : i < 256 := List.mem_range.mp hi
      have key : ∀ j, j < 768 →
          (paletteBytes file).getD j 0 = file.getD (file.length - 768 + j) 0 := by
        intro j hj
        rw [hpbeq, getD_take _ _ _ hj, getD_drop]
      rw [key (3 * i) (by omega), key (3 * i + 1) (by omega),
        key (3 * i + 2) (by omega)]
      simp [Nat.add_assoc]
    · unfold palette256
      simp
  · intro hlen
    unfold read_pcx_256_palette
    rw [if_pos (by omega : file.length < 128 + 769)]
  · intro hlen hsig
    have htl : (paletteTail file).length = 769 := by
      rw [paletteTail_eq, List.length_drop]
      omega
    have hsig' : (paletteTail file).getD 0 0 ≠ 12 := by
      rw [paletteTail_eq, getD_drop, Nat.add_zero]
      exact hsig
    unfold read_pcx_256_palette
    rw [if_neg (by omega : ¬ file.length < 128 + 769),
      if_neg (by omega : ¬ (paletteTail file).length < 769),
      if_pos hsig']

/-- Claim C4 witness: `fileC4` (897 bytes, signature byte 12 at position 128)
yields the 256-entry palette, and the all-zero `fileC4b` yields none. -/
theorem C4_palette_iff_witness :
    (read_pcx_256_palette fileC4 = some (palette256 fileC4) ∧
      (palette256 fileC4).length = 256) ∧
    read_pcx_256_palette fileC4b = none ∧
    read_pcx_256_palette [1, 2, 3] = none :=
  ⟨(C4_palette_iff fileC4).1 (by decide) (by decide),
   (C4_palette_iff fileC4b).2.2 (by decide) (by decide),
   (C4_palette_iff [1, 2, 3]).2.1 (by decide)⟩

/-- Claim C2 counterexample: in `fileC2` the byte at offset 65 is 7 and the
byte at offset 68 is 9; the parser reports `numColorPlanes = 7`, the value at
offset 65, not the value 9 at offset 68 the claim names. -/
theorem C2_offsets_counterexample :
    read_pcx_header fileC2 = some hC2 ∧
    fileC2.getD 68 0 = 9 ∧ hC2.numColorPlanes = 7 ∧
    hC2.numColorPlanes ≠ fileC2.getD 68 0 := by
  refine ⟨by decide, by decide, rfl, by decide⟩

/-- Claim C2 (amended): `read_pcx_header` reads `numColorPlanes` as a u8 at
byte offset 65, `bytesPerLine` as a little-endian u16 at offset 66,
`paletteType` at offset 68, `hScreenSize` at offset 70 and `vScreenSize` at
offset 72, and the parsed header depends on no bytes of the 128-byte record
outside offsets 0–15 and 65–73. -/
theorem C2_header_offsets_amended : ∀ (file file2 : List Nat),
    (¬ file.length < 128 →
      read_pcx_header file = some
        { manufacturer := file.getD 0 0
          version := file.getD 1 0
          encoding := file.getD 2 0
          bitsPerPixel := file.getD 3 0
          xmin := u16le file 4
          ymin := u16le file 6
          xmax := u16le file 8
          ymax := u16le file 10
          hDpi := u16le file 12
          vDpi := u16le file 14
          numColorPlanes := file.getD 65 0
          bytesPerLine := u16le file 66
          paletteType := u16le file 68
          hScreenSize := u16le file 70
          vScreenSize := u16le file 72 }) ∧
    (¬ file.length < 128 → ¬ file2.length < 128 →
      (∀ i, i < 16 ∨ (65 ≤ i ∧ i ≤ 73) → file.getD i 0 = file2.getD i 0) →
      read_pcx_header file = read_pcx_header file2) := by
  intro file file2
  constructor
  · intro h1
    simp [read_pcx_header, h1]
  · intro h1 h2 hag
    simp only [read_pcx_header, h1, h2, if_false, u16le,
      hag 0 (by omega), hag 1 (by omega), hag 2 (by omega), hag 3 (by omega),
      hag 4 (by omega), hag 5 (by omega), hag 6 (by omega), hag 7 (by omega),
      hag 8 (by omega), hag 9 (by omega), hag 10 (by omega), hag 11 (by omega),
      hag 12 (by omega), hag 13 (by omega), hag 14 (by omega), hag 15 (by omega),
      hag 65 (by omega), hag 66 (by omega), hag 67 (by omega), hag 68 (by omega),
      hag 69 (by omega), hag 70 (by omega), hag 71 (by omega), hag 72 (by omega),
      hag 73 (by omega)]

/-- Claim C2 amended witness: instantiated at the concrete record `fileC2`
(with itself as the agreeing file). -/
theorem C2_header_offsets_amended_witness :
    read_pcx_header fileC2 = some
      { manufacturer := fileC2.getD 0 0
        version := fileC2.getD 1 0
        encoding := fileC2.getD 2 0
        bitsPerPixel := fileC2.getD 3 0
        xmin := u16le fileC2 4
        ymin := u16le fileC2 6
        xmax := u16le fileC2 8
        ymax := u16le fileC2 10
        hDpi := u16le fileC2 12
        vDpi := u16le fileC2 14
        numColorPlanes := fileC2.getD 65 0
        bytesPerLine := u16le fileC2 66
        paletteType := u16le fileC2 68
        hScreenSize := u16le fileC2 70
        vScreenSize := u16le fileC2 72 } ∧
    read_pcx_header fileC2 = read_pcx_header fileC2 :=
  ⟨(C2_header_offsets_amended fileC2 fileC2).1 (by decide),
   (C2_header_offsets_amended fileC2 fileC2).2 (by decide) (by decide)
     (fun _ _ => rfl)⟩

/-- Claim C7 counterexample: `fileC7` has `xmin = 1` and `xmax = 0`; its
header parses successfully yet the derived width is 0, not at least 1. -/
theorem C7_width_counterexample :
    read_pcx_header fileC7 = some hC7 ∧ width hC7 = 0 ∧ ¬ (1 ≤ width hC7) := by
  refine ⟨by decide, by decide, by decide⟩

/-- Claim C7 (amended): for every successfully parsed header the returned
width equals `xmax - xmin + 1` and the height equals `ymax - ymin + 1` in
signed arithmetic, and each is at least 1 exactly when the corresponding
maximum is at least the minimum (the parser performs no such validation). -/
theorem C7_dimensions_amended : ∀ (file : List Nat) (h : PcxHeader),
    read_pcx_header file = some h →
    width h = (h.xmax : Int) - (h.xmin : Int) + 1 ∧
    height h = (h.ymax : Int) - (h.ymin : Int) + 1 ∧
    (1 ≤ width h ↔ h.xmin ≤ h.xmax) ∧
    (1 ≤ height h ↔ h.ymin ≤ h.ymax) := by
  intro file h _
  refine ⟨rfl, rfl, ?_, ?_⟩
  · unfold width
    omega
  · unfold height
    omega

/-- Claim C7 amended witness: instantiated at `fileC7`, whose parsed header
has `xmin = 1 > 0 = xmax`, hence width below 1. -/
theorem C7_dimensions_amended_witness :
    width hC7 = (hC7.xmax : Int) - (hC7.xmin : Int) + 1 ∧
    height hC7 = (hC7.ymax : Int) - (hC7.ymin : Int) + 1 ∧
    (1 ≤ width hC7 ↔ hC7.xmin ≤ hC7.xmax) ∧
    (1 ≤ height hC7 ↔ hC7.ymin ≤ hC7.ymax) :=
  C7_dimensions_amended fileC7 hC7 (by decide)

/-- Claim C9: for every successfully parsed header, the palette-info string
is computed by the claimed precedence chain, the indexed flag holds exactly
for one plane at 8 bits per pixel, and the flag is false in every non-first
case. -/
theorem C9_palette_info_precedence : ∀ (file : List Nat) (h : PcxHeader),
    read_pcx_header file = some h →
    palette_info h = claimPaletteInfo h.bitsPerPixel h.numColorPlanes ∧
    (is_indexed h = true ↔ (h.numColorPlanes = 1 ∧ h.bitsPerPixel = 8)) ∧
    (¬ (h.numColorPlanes = 1 ∧ h.bitsPerPixel = 8) → is_indexed h = false) := by
  intro file h _
  have hiff : is_indexed h = true ↔ (h.numColorPlanes = 1 ∧ h.bitsPerPixel = 8) := by
    simp [is_indexed]
  have hflag : ∀ hn : ¬ (h.numColorPlanes = 1 ∧ h.bitsPerPixel = 8),
      is_indexed h = false := by
    intro hn
    cases hb : is_indexed h
    · rfl
    · exact absurd (hiff.1 hb) hn
  refine ⟨?_, hiff, hflag⟩
  by_cases h1 : h.numColorPlanes = 1 ∧ h.bitsPerPixel = 8
  · simp [palette_info, claimPaletteInfo, hiff.2 h1, h1.1, h1.2]
  · simp [palette_info, claimPaletteInfo, hflag h1, h1]

/-- Claim C9 witness: instantiated at `fileC9`, an 8-bit single-plane header
classified as externally-paletted 256-color and indexed. -/
theorem C9_palette_info_precedence_witness :
    (palette_info hC9 = claimPaletteInfo hC9.bitsPerPixel hC9.numColorPlanes ∧
      (is_indexed hC9 = true ↔ (hC9.numColorPlanes = 1 ∧ hC9.bitsPerPixel = 8)) ∧
      (¬ (hC9.numColorPlanes = 1 ∧ hC9.bitsPerPixel = 8) → is_indexed hC9 = false)) ∧
    palette_info hC9 = "256-Color (External)" ∧ is_indexed hC9 = true :=
  ⟨C9_palette_info_precedence fileC9 hC9 (by decide), by rfl, by rfl⟩

/-- Beyond the early-return guards (header parsed, file longer than 897
bytes), every branch of `read_pcx` populates the header, palette and raw
pixel fields identically. -/
theorem read_pcx_large (file : List Nat) (h : PcxHeader)
    (hh : read_pcx_header file = some h) (hlen : 897 < file.length) :
    (read_pcx file).header = some h ∧
    (read_pcx file).palette = read_pcx_256_palette file ∧
    (read_pcx file).raw_pixels = some (decodedPixels file) := by
  have h3 : ¬ (imageData file).length = 0 := by
    unfold imageData
    rw [List.length_take, List.length_drop]
    omega
  simp only [read_pcx, hh]
  rw [if_neg (by omega : ¬ file.length < 128 + 769),
    if_neg (by omega : ¬ file.length - 897 = 0),
    if_neg h3]
  refine ⟨?_, ?_, ?_⟩ <;> (split_ifs <;> rfl)

/-- When the decoded buffer is shorter than `bytes_per_line * height`,
`read_pcx` keeps the header, palette and raw pixels but builds no image (the
result is the same whether or not the 8-bit single-plane guard holds, since a
failing guard also skips assembly). -/
theorem read_pcx_short_decode (file : List Nat) (h : PcxHeader)
    (hh : read_pcx_header file = some h) (hlen : 897 < file.length)
    (hshort : ((decodedPixels file).length : Int) <
      (h.bytesPerLine : Int) * height h) :
    read_pcx file =
      ⟨some h, read_pcx_256_palette file, some (decodedPixels file), none⟩ := by
  have h3 : ¬ (imageData file).length = 0 := by
    unfold imageData
    rw [List.length_take, List.length_drop]
    omega
  simp only [read_pcx, hh]
  rw [if_neg (by omega : ¬ file.length < 128 + 769),
    if_neg (by omega : ¬ file.length - 897 = 0),
    if_neg h3]
  by_cases hg : h.bitsPerPixel = 8 ∧ h.numColorPlanes = 1 ∧
      width h ≠ 0 ∧ height h ≠ 0 ∧ h.bytesPerLine ≠ 0
  · rw [if_pos hg, if_pos hshort]
  · rw [if_neg hg]

/-- Claim C1 counterexample: `fileC1` parses to an 8-bit single-plane header
with four rows of four bytes per line; its image region decodes to only eight
bytes — two complete rows, which the row assembler would recover — yet
`read_pcx` returns an absent image rather than a partial one. -/
theorem C1_partial_image_counterexample :
    read_pcx_header fileC1 = some hC1 ∧
    hC1.bitsPerPixel = 8 ∧ hC1.numColorPlanes = 1 ∧
    (read_pcx fileC1).raw_pixels = some (List.replicate 8 7) ∧
    ((List.replicate 8 7 : List Nat).length : Int) <
      (hC1.bytesPerLine : Int) * height hC1 ∧
    assembleRows (List.replicate 8 7) hC1.bytesPerLine 4 4 0 = List.replicate 8 7 ∧
    (read_pcx fileC1).image = none := by
  have hh : read_pcx_header fileC1 = some hC1 := by decide
  have hdec : decodedPixels fileC1 = List.replicate 8 7 := by decide
  have hlen : 897 < fileC1.length := by decide
  have hshort : ((decodedPixels fileC1).length : Int) <
      (hC1.bytesPerLine : Int) * height hC1 := by
    rw [hdec]
    decide
  have hr := read_pcx_short_decode fileC1 hC1 hh hlen hshort
  refine ⟨hh, rfl, rfl, ?_, by decide, by decide, ?_⟩
  · rw [hr, hdec]
  · rw [hr]

/-- Claim C1 (amended): for a successfully parsed 8-bit single-plane header,
when the decoded image-data buffer holds fewer than
`bytes_per_line * height` bytes, `read_pcx` returns the header, the palette
and the raw decoded bytes but an absent image: the early return skips row
assembly, so no partial image of complete rows is produced. -/
theorem C1_short_decode_amended : ∀ (file : List Nat) (h : PcxHeader),
    read_pcx_header file = some h → 897 < file.length →
    h.bitsPerPixel = 8 → h.numColorPlanes = 1 →
    ((decodedPixels file).length : Int) < (h.bytesPerLine : Int) * height h →
    read_pcx file =
      ⟨some h, read_pcx_256_palette file, some (decodedPixels file), none⟩ :=
  fun file h hh hlen _ _ hshort => read_pcx_short_decode file h hh hlen hshort

/-- Claim C1 amended witness: instantiated at the concrete file `fileC1`. -/
theorem C1_short_decode_amended_witness :
    read_pcx fileC1 =
      ⟨some hC1, read_pcx_256_palette fileC1, some (decodedPixels fileC1), none⟩ :=
  C1_short_decode_amended fileC1 hC1 (by decide) (by decide) (by decide) (by decide)
    (by decide)

/-- Claim C10: `read_pcx` always reserves the final 769 bytes of the file for
the presumed palette.  For every file of at most 128 + 769 bytes the raw
pixels, palette and image are all absent (whatever the header), and for every
larger file the decoder input is exactly the region between the header and
the final 769 bytes, which are never fed to the RLE decoder. -/
theorem C10_reserved_tail : ∀ (file : List Nat),
    (file.length ≤ 897 →
      (read_pcx file).raw_pixels = none ∧ (read_pcx file).palette = none ∧
      (read_pcx file).image = none) ∧
    (∀ h : PcxHeader, read_pcx_header file = some h → 897 < file.length →
      (read_pcx file).raw_pixels = some (pcx_rle_decode (imageData file)) ∧
      imageData file ++ file.drop (file.length - 769) = file.drop 128) := by
  intro file
  constructor
  · intro hlen
    cases hcase : read_pcx_header file with
    | none => simp [read_pcx, hcase]
    | some h =>
        by_cases h1 : file.length < 128 + 769
        · simp [read_pcx, hcase, h1]
        · have h2 : file.length - 897 = 0 := by omega
          simp [read_pcx, hcase, h1, h2]
  · intro h hh hlen
    refine ⟨(read_pcx_large file h hh hlen).2.2, ?_⟩
    have e : file.drop (file.length - 769) = (file.drop 128).drop (file.length - 897) := by
      rw [List.drop_drop]
      congr 1
      omega
    unfold imageData
    rw [e, List.take_append_drop]

/-- Claim C10 witness: the 897-byte `fileC4b` gets no pixels, palette or
image, and on the 899-byte `fileC1` the decoder input plus the reserved tail
reconstitute the region after the header. -/
theorem C10_reserved_tail_witness :
    ((read_pcx fileC4b).raw_pixels = none ∧ (read_pcx fileC4b).palette = none ∧
      (read_pcx fileC4b).image = none) ∧
    ((read_pcx fileC1).raw_pixels = some (pcx_rle_decode (imageData fileC1)) ∧
      imageData fileC1 ++ fileC1.drop (fileC1.length - 769) = fileC1.drop 128) :=
  ⟨(C10_reserved_tail fileC4b).1 (by decide),
   (C10_reserved_tail fileC1).2 hC1 (by decide) (by decide)⟩

end Pcx
